import Mathlib

/-!
Shallow embedding of the TapTap chart-building pipeline
(tools/build_stemstation_chart.py and tools/transcribe-basicpitch.py).

Times are modelled as exact rationals (Python floats), MIDI pitches and
lanes as integers.  Python `round` is round-half-to-even, `//` is floor
division.  The fallible multi-stem build is modelled in `Except`: an
`Except.error` result stands for an uncaught Python exception (non-zero
process exit, no chart document written), `Except.ok` for a fully
written chart document.
-/

/-- Working note entity of build_stemstation_chart.py (class NoteEvent):
time and duration in milliseconds, MIDI pitch, lane index. -/
structure NoteEvent where
  timeMs : ℚ
  durationMs : ℚ
  pitch : ℤ
  lane : ℤ
deriving DecidableEq, Repr

/-- The three difficulty tiers (the Literal type Difficulty in the source). -/
inductive Difficulty where
  | easy
  | normal
  | expert
deriving DecidableEq, Repr

/-- map_pitch_to_lane (build_stemstation_chart.py lines 46-58):
fixed range buckets onto lanes 0-3. -/
def map_pitch_to_lane (pitch : ℤ) : ℤ :=
  if pitch < 50 then 0
  else if pitch < 60 then 1
  else if pitch < 72 then 2
  else 3

/-- lane_for_midi (transcribe-basicpitch.py line 27):
max(0, min(3, (midi_note - 36) // 12)) with Python floor division. -/
def lane_for_midi (midi_note : ℤ) : ℤ :=
  max 0 (min 3 ((midi_note - 36).fdiv 12))

/-- Python round(): round half to even (banker's rounding), as used on
floats by round(x) and round(x / grid). -/
def pythonRound (x : ℚ) : ℤ :=
  if x - ⌊x⌋ < 1/2 then ⌊x⌋
  else if 1/2 < x - ⌊x⌋ then ⌊x⌋ + 1
  else if ⌊x⌋ % 2 = 0 then ⌊x⌋ else ⌊x⌋ + 1

/-- Pointwise update of the last_time_by_lane dictionary. -/
def updLane (st : ℤ → ℚ) (k : ℤ) (v : ℚ) : ℤ → ℚ :=
  fun j => if j = k then v else st j

/-- Whether the tier drops notes on a spacing violation:
the source tests difficulty in ("easy", "normal"). -/
def dropsFor (d : Difficulty) : Bool :=
  match d with
  | .easy => true
  | .normal => true
  | .expert => false

/-- Gap selection of thin_notes_for_difficulty lines 71-76: expert takes the
expert spacing, normal the normal spacing, anything else the easy spacing. -/
def min_gap_for (d : Difficulty) (gapEasy gapNormal gapExpert : ℚ) : ℚ :=
  match d with
  | .expert => gapExpert
  | .normal => gapNormal
  | .easy => gapEasy

/-- The thinning loop of thin_notes_for_difficulty (lines 78-91): a note is
skipped iff its distance to the last accepted note on its lane is below the
gap AND the tier drops notes; otherwise it is emitted and the per-lane last
time is updated. -/
def thinGo (drops : Bool) (g : ℚ) (st : ℤ → ℚ) : List NoteEvent → List NoteEvent
  | [] => []
  | n :: rest =>
      if n.timeMs - st n.lane < g ∧ drops = true then
        thinGo drops g st rest
      else
        n :: thinGo drops g (updLane st n.lane n.timeMs) rest

/-- last_time_by_lane.get(lane, -1e9): every lane starts at -1e9. -/
def initLast : ℤ → ℚ := fun _ => -1000000000

/-- thin_notes_for_difficulty (lines 60-91).  The three spacing arguments are
the keyword parameters of the source (defaults 260 / 160 / 80). -/
def thin_notes_for_difficulty (notes : List NoteEvent) (difficulty : Difficulty)
    (min_spacing_ms_easy min_spacing_ms_normal min_spacing_ms_expert : ℚ) :
    List NoteEvent :=
  thinGo (dropsFor difficulty)
    (min_gap_for difficulty min_spacing_ms_easy min_spacing_ms_normal min_spacing_ms_expert)
    initLast notes

/-- quantize_notes_to_grid (lines 93-99):
n.time_ms = round(n.time_ms / grid_ms) * grid_ms for every note. -/
def quantize_notes_to_grid (notes : List NoteEvent) (grid_ms : ℚ) : List NoteEvent :=
  notes.map fun n => { n with timeMs := (pythonRound (n.timeMs / grid_ms) : ℚ) * grid_ms }

/-- Reference single-lane thinning with a scalar last-accepted time, used to
reason about one lane of `thinGo`. -/
def thin1 (g : ℚ) (t : ℚ) : List NoteEvent → List NoteEvent
  | [] => []
  | n :: rest =>
      if n.timeMs - t < g then thin1 g t rest
      else n :: thin1 g n.timeMs rest

/-- A list is a valid spacing-respecting selection after last-accepted time t:
each element is at least g after the previous accepted time. -/
def Valid1 (g : ℚ) : ℚ → List NoteEvent → Prop
  | _, [] => True
  | t, n :: rest => t + g ≤ n.timeMs ∧ Valid1 g n.timeMs rest

/-- Raw note of the external MIDI/transcription collaborator: start and
end in seconds, MIDI pitch. -/
structure RawNote where
  start : ℚ
  end_ : ℚ
  pitch : ℤ
deriving DecidableEq, Repr

/-- Chart note of the single-stream shape (transcribe-basicpitch.py):
tap notes carry no endTimeMs, hold notes carry one. -/
structure ChartNote where
  timeMs : ℤ
  lane : ℤ
  type : String
  endTimeMs : Option ℤ
deriving DecidableEq, Repr

/-- start_ms = int(round(n.start * 1000)) + offset_ms (line 33). -/
def note_start_ms (n : RawNote) (offset_ms : ℤ) : ℤ :=
  pythonRound (n.start * 1000) + offset_ms

/-- end_ms = int(round(n.end * 1000)) + offset_ms (line 34). -/
def note_end_ms (n : RawNote) (offset_ms : ℤ) : ℤ :=
  pythonRound (n.end_ * 1000) + offset_ms

/-- The per-note tap/hold classification of build_chart_from_midi
(lines 33-48): hold iff end_ms - start_ms >= 350. -/
def classify_note (n : RawNote) (offset_ms : ℤ) : ChartNote :=
  let start_ms := note_start_ms n offset_ms
  let end_ms := note_end_ms n offset_ms
  let lane := lane_for_midi n.pitch
  if end_ms - start_ms ≥ 350 then
    { timeMs := start_ms, lane := lane, type := "hold", endTimeMs := some end_ms }
  else
    { timeMs := start_ms, lane := lane, type := "tap", endTimeMs := none }

/-- load_midi_notes (lines 28-44) applied to the decoded raw notes: unit
conversion seconds to ms, lane assignment, then a stable sort by time. -/
def load_midi_notes (raw : List RawNote) : List NoteEvent :=
  (raw.map fun r =>
    { timeMs := r.start * 1000
      durationMs := (r.end_ - r.start) * 1000
      pitch := r.pitch
      lane := map_pitch_to_lane r.pitch : NoteEvent }).mergeSort
    (fun a b => decide (a.timeMs ≤ b.timeMs))

/-- NoteEvent.to_dict (lines 20-26): rounded times, integer pitch and lane. -/
structure NoteDict where
  timeMs : ℤ
  durationMs : ℤ
  pitch : ℤ
  lane : ℤ
deriving DecidableEq, Repr

/-- NoteEvent.to_dict (lines 20-26). -/
def NoteEvent.to_dict (n : NoteEvent) : NoteDict :=
  { timeMs := pythonRound n.timeMs
    durationMs := pythonRound n.durationMs
    pitch := n.pitch
    lane := n.lane }

/-- One entry of the "stems" object: midiFile plus the three
difficulty note lists (lines 149-156). -/
structure StemEntry where
  midiFile : String
  easyNotes : List NoteDict
  normalNotes : List NoteDict
  expertNotes : List NoteDict
deriving DecidableEq, Repr

/-- The multi-stem chart document (lines 158-165). -/
structure Chart where
  trackId : String
  songName : String
  artist : String
  bpm : ℚ
  audioOffsetMs : ℤ
  stems : List (String × StemEntry)
deriving DecidableEq, Repr

/-- The loop body of build_chart_for_song for one existing stem
(lines 130-156).  60000.0 / bpm raises ZeroDivisionError exactly when
bpm == 0; the spacing triples are those of the three thinning calls
(lines 136-147). -/
def build_stem_entry (bpm : ℚ) (midiFile : String) (raw : List RawNote) :
    Except String StemEntry :=
  if bpm = 0 then Except.error "ZeroDivisionError: float division by zero"
  else
    let all_notes := load_midi_notes raw
    let beat_ms := 60000 / bpm
    let grid_ms := beat_ms / 4
    let quantized := quantize_notes_to_grid all_notes grid_ms
    let expert_notes := thin_notes_for_difficulty quantized .expert 260 160 80
    let normal_notes := thin_notes_for_difficulty quantized .normal 260 150 80
    let easy_notes := thin_notes_for_difficulty quantized .easy 260 160 80
    Except.ok
      { midiFile := midiFile
        easyNotes := easy_notes.map NoteEvent.to_dict
        normalNotes := normal_notes.map NoteEvent.to_dict
        expertNotes := expert_notes.map NoteEvent.to_dict }

/-- The fixed stem iteration order of line 125. -/
def stem_names : List String := ["melody", "drums", "vocals"]

/-- The stem loop of build_chart_for_song (lines 123-156).  A stem whose
source is absent is skipped; an exception in a stem aborts the build. -/
def build_stems (bpm : ℚ) (slug midi_dir : String)
    (sources : String → Option (List RawNote)) :
    List String → Except String (List (String × StemEntry))
  | [] => Except.ok []
  | s :: rest =>
      match sources s with
      | none => build_stems bpm slug midi_dir sources rest
      | some raw =>
          match build_stem_entry bpm (midi_dir ++ "/" ++ slug ++ "_" ++ s ++ ".mid") raw with
          | Except.error e => Except.error e
          | Except.ok entry =>
              match build_stems bpm slug midi_dir sources rest with
              | Except.error e => Except.error e
              | Except.ok tail => Except.ok ((s, entry) :: tail)

/-- build_chart_for_song (lines 103-169).  `sources` models the file system:
`sources s = some raw` iff the MIDI file for stem s exists and decodes to the
raw note list raw. -/
def build_chart_for_song (track_id song_name artist : String) (bpm : ℚ)
    (midi_dir : String) (sources : String → Option (List RawNote)) :
    Except String Chart :=
  let song_slug := song_name.replace " " "_"
  match build_stems bpm song_slug midi_dir sources stem_names with
  | Except.error e => Except.error e
  | Except.ok stems =>
      Except.ok
        { trackId := track_id
          songName := song_name
          artist := artist
          bpm := bpm
          audioOffsetMs := 0
          stems := stems }

/-- True iff the build ran to completion and wrote a chart document. -/
def buildOk (r : Except String Chart) : Bool :=
  match r with
  | Except.ok _ => true
  | Except.error _ => false

/-- The list of stem keys of the produced document (empty on failure). -/
def chartKeys (r : Except String Chart) : List String :=
  match r with
  | Except.ok c => c.stems.map Prod.fst
  | Except.error _ => []

/-- The audioOffsetMs field of the produced document, if one was produced. -/
def chartAudioOffset (r : Except String Chart) : Option ℤ :=
  match r with
  | Except.ok c => some c.audioOffsetMs
  | Except.error _ => none

/-- Concrete sorted three-note input, the end-to-end example of the spec. -/
def demoNotes : List NoteEvent :=
  [{ timeMs := 0, durationMs := 0, pitch := 40, lane := 0 },
   { timeMs := 90, durationMs := 0, pitch := 40, lane := 0 },
   { timeMs := 500, durationMs := 0, pitch := 65, lane := 2 }]

/-- A file system with only the drums MIDI present. -/
def drumsOnlySources : String → Option (List RawNote) :=
  fun s => if s = "drums" then some [{ start := 0, end_ := 1, pitch := 60 }] else none

/-! ## Basic properties of the thinning loop -/

theorem thinGo_sublist (b : Bool) (g : ℚ) (l : List NoteEvent) :
    ∀ st : ℤ → ℚ, (thinGo b g st l).Sublist l := by
  induction l with
  | nil => intro st; simp [thinGo]
  | cons n rest ih =>
      intro st
      simp only [thinGo]
      split
      · exact (ih st).cons n
      · exact (ih (updLane st n.lane n.timeMs)).cons₂ n

theorem thinGo_false (g : ℚ) (l : List NoteEvent) :
    ∀ st : ℤ → ℚ, thinGo false g st l = l := by
  induction l with
  | nil => intro st; simp [thinGo]
  | cons n rest ih => intro st; simp [thinGo, ih]

theorem thinGo_filter_comm (b : Bool) (g : ℚ) (k : ℤ) (l : List NoteEvent) :
    ∀ st st' : ℤ → ℚ, st k = st' k →
    (thinGo b g st l).filter (fun n => decide (n.lane = k)) =
      thinGo b g st' (l.filter (fun n => decide (n.lane = k))) := by
  induction l with
  | nil => intro st st' _; simp [thinGo]
  | cons n rest ih =>
      intro st st' hstk
      by_cases hk : n.lane = k
      · have hlane : st n.lane = st' n.lane := by rw [hk, hstk]
        simp only [thinGo, List.filter_cons, if_pos (by simp [hk] : decide (n.lane = k) = true)]
        simp only [thinGo, hlane]
        split
        · exact ih st st' hstk
        · simp only [List.filter_cons, if_pos (by simp [hk] : decide (n.lane = k) = true)]
          refine congrArg (n :: ·) ?_
          refine ih _ _ ?_
          simp [updLane, hk]
      · simp only [thinGo, List.filter_cons,
          if_neg (by simp [hk] : ¬ decide (n.lane = k) = true)]
        split
        · exact ih st st' hstk
        · simp only [List.filter_cons,
            if_neg (by simp [hk] : ¬ decide (n.lane = k) = true)]
          refine ih _ _ ?_
          simp only [updLane]
          rw [if_neg (by omega), hstk]

theorem thinGo_eq_thin1 (g : ℚ) (k : ℤ) (l : List NoteEvent)
    (hl : ∀ n ∈ l, n.lane = k) :
    ∀ st : ℤ → ℚ, thinGo true g st l = thin1 g (st k) l := by
  induction l with
  | nil => intro st; simp [thinGo, thin1]
  | cons n rest ih =>
      intro st
      have hk : n.lane = k := hl n (List.mem_cons_self n rest)
      have hrest : ∀ m ∈ rest, m.lane = k := fun m hm => hl m (List.mem_cons_of_mem n hm)
      simp only [thinGo, thin1, hk, and_true]
      split
      · exact ih hrest st
      · refine congrArg (n :: ·) ?_
        rw [ih hrest (updLane st k n.timeMs)]
        simp [updLane, hk]

theorem thin1_sublist (g : ℚ) (l : List NoteEvent) :
    ∀ t : ℚ, (thin1 g t l).Sublist l := by
  induction l with
  | nil => intro t; simp [thin1]
  | cons n rest ih =>
      intro t
      simp only [thin1]
      split
      · exact (ih t).cons n
      · exact (ih n.timeMs).cons₂ n

theorem thin1_valid (g : ℚ) (l : List NoteEvent) :
    ∀ t : ℚ, Valid1 g t (thin1 g t l) := by
  induction l with
  | nil => intro t; simp [thin1, Valid1]
  | cons n rest ih =>
      intro t
      simp only [thin1]
      split
      · exact ih t
      · exact ⟨by linarith [not_lt.mp (by assumption : ¬ n.timeMs - t < g)], ih n.timeMs⟩

theorem Valid1_mono_last (g : ℚ) (s : List NoteEvent) (t t' : ℚ) (h : t ≤ t')
    (hv : Valid1 g t' s) : Valid1 g t s := by
  cases s with
  | nil => trivial
  | cons n rest => exact ⟨by linarith [hv.1], hv.2⟩

theorem Valid1_mono_gap (g g' : ℚ) (hg : g ≤ g') (s : List NoteEvent) :
    ∀ t : ℚ, Valid1 g' t s → Valid1 g t s := by
  induction s with
  | nil => intro t _; trivial
  | cons n rest ih => intro t hv; exact ⟨by linarith [hv.1], ih n.timeMs hv.2⟩

theorem Valid1_chain (g : ℚ) (s : List NoteEvent) :
    ∀ t : ℚ, Valid1 g t s →
    List.Chain' (fun a b => g ≤ b.timeMs - a.timeMs) s := by
  induction s with
  | nil => intro t _; simp
  | cons n rest ih =>
      intro t hv
      cases rest with
      | nil => simp
      | cons m rest2 =>
          rw [List.chain'_cons]
          exact ⟨by linarith [hv.2.1], ih n.timeMs hv.2⟩

theorem thin1_maximal (g : ℚ) (l : List NoteEvent)
    (hl : l.Pairwise fun a b => a.timeMs ≤ b.timeMs) :
    ∀ (s : List NoteEvent) (t : ℚ), s.Sublist l → Valid1 g t s →
    s.length ≤ (thin1 g t l).length := by
  induction l with
  | nil =>
      intro s t hsub _
      simp [List.sublist_nil.mp hsub, thin1]
  | cons x rest ih =>
      have hx : ∀ b ∈ rest, x.timeMs ≤ b.timeMs := (List.pairwise_cons.mp hl).1
      have hrest := (List.pairwise_cons.mp hl).2
      intro s t hsub hval
      simp only [thin1]
      split
      · -- x rejected by the greedy pass
        rename_i hcond
        cases hsub with
        | cons _ h => exact ih hrest s t h hval
        | cons₂ _ h =>
            exfalso
            have := hval.1
            linarith
      · -- x accepted by the greedy pass
        rename_i hcond
        have hxt : t + g ≤ x.timeMs := by linarith [not_lt.mp hcond]
        cases hsub with
        | cons₂ _ h =>
            have := ih hrest _ x.timeMs h hval.2
            simpa using Nat.succ_le_succ this
        | cons _ h =>
            cases s with
            | nil => simp
            | cons y s1 =>
                have hy : y ∈ rest := h.subset (List.mem_cons_self y s1)
                have hxy : x.timeMs ≤ y.timeMs := hx y hy
                have hs1 : s1.Sublist rest := (List.sublist_cons_self y s1).trans h
                have hvx : Valid1 g x.timeMs s1 :=
                  Valid1_mono_last g s1 x.timeMs y.timeMs hxy hval.2
                have := ih hrest s1 x.timeMs hs1 hvx
                simpa using Nat.succ_le_succ this

theorem thin1_length_mono (g g' : ℚ) (hg : g ≤ g') (l : List NoteEvent)
    (hl : l.Pairwise fun a b => a.timeMs ≤ b.timeMs) (t : ℚ) :
    (thin1 g' t l).length ≤ (thin1 g t l).length :=
  thin1_maximal g l hl (thin1 g' t l) t (thin1_sublist g' l t)
    (Valid1_mono_gap g g' hg (thin1 g' t l) t (thin1_valid g' l t))

theorem length_eq_sum_filter_lane (S : Finset ℤ) (l : List NoteEvent)
    (hl : ∀ n ∈ l, n.lane ∈ S) :
    l.length = ∑ k ∈ S, (l.filter (fun n => decide (n.lane = k))).length := by
  induction l with
  | nil => simp
  | cons n rest ih =>
      have hrest : ∀ m ∈ rest, m.lane ∈ S := fun m hm => hl m (List.mem_cons_of_mem n hm)
      have hn : n.lane ∈ S := hl n (List.mem_cons_self n rest)
      have step : ∀ k ∈ S,
          ((n :: rest).filter (fun m => decide (m.lane = k))).length =
            (rest.filter (fun m => decide (m.lane = k))).length +
              (if k = n.lane then 1 else 0) := by
        intro k _
        by_cases hk : n.lane = k
        · simp [List.filter_cons, hk]
        · rw [List.filter_cons, if_neg (by simp [hk]), if_neg (by omega)]
          omega
      rw [Finset.sum_congr rfl step, Finset.sum_add_distrib, Finset.sum_ite_eq' S n.lane]
      simp [hn, ih hrest, Nat.add_comm]

theorem thinGo_length_mono (g g' : ℚ) (hg : g ≤ g') (l : List NoteEvent)
    (hl : l.Pairwise fun a b => a.timeMs ≤ b.timeMs) :
    (thinGo true g' initLast l).length ≤ (thinGo true g initLast l).length := by
  classical
  set S : Finset ℤ := (l.map (fun n => n.lane)).toFinset with hS
  have hmem : ∀ n ∈ l, n.lane ∈ S := by
    intro n hn
    rw [hS, List.mem_toFinset]
    exact List.mem_map_of_mem _ hn
  have hsub1 : ∀ n ∈ thinGo true g' initLast l, n.lane ∈ S :=
    fun n hn => hmem n ((thinGo_sublist true g' l initLast).subset hn)
  have hsub2 : ∀ n ∈ thinGo true g initLast l, n.lane ∈ S :=
    fun n hn => hmem n ((thinGo_sublist true g l initLast).subset hn)
  rw [length_eq_sum_filter_lane S _ hsub1, length_eq_sum_filter_lane S _ hsub2]
  refine Finset.sum_le_sum ?_
  intro k _
  rw [thinGo_filter_comm true g' k l initLast initLast rfl,
    thinGo_filter_comm true g k l initLast initLast rfl]
  have hfl : ∀ m ∈ l.filter (fun n => decide (n.lane = k)), m.lane = k := by
    intro m hm
    simpa using List.of_mem_filter hm
  rw [thinGo_eq_thin1 g' k _ hfl initLast, thinGo_eq_thin1 g k _ hfl initLast]
  exact thin1_length_mono g g' hg _ (hl.filter _) (initLast k)

/-! ## Claims about the Difficulty Thinner -/

/-- Claim C1: for every input sorted by timeMs and every minimum-gap
configuration, thinning at the easy or normal tier returns an
order-preserving sub-sequence of the input, of length at most the input
length, in which any two consecutive kept notes on the same lane are at
least the selected minimum gap apart in timeMs. -/
theorem claim_C1_easy_normal_thinning (notes : List NoteEvent)
    (_hsorted : notes.Pairwise fun a b => a.timeMs ≤ b.timeMs)
    (gapEasy gapNormal gapExpert : ℚ) (d : Difficulty)
    (hd : d = Difficulty.easy ∨ d = Difficulty.normal) :
    (thin_notes_for_difficulty notes d gapEasy gapNormal gapExpert).Sublist notes ∧
    (thin_notes_for_difficulty notes d gapEasy gapNormal gapExpert).length ≤
      notes.length ∧
    ∀ k : ℤ, List.Chain'
      (fun a b => min_gap_for d gapEasy gapNormal gapExpert ≤ b.timeMs - a.timeMs)
      ((thin_notes_for_difficulty notes d gapEasy gapNormal gapExpert).filter
        (fun n => decide (n.lane = k))) := by
  have hdrops : dropsFor d = true := by
    rcases hd with h | h <;> rw [h] <;> rfl
  have hsub : (thin_notes_for_difficulty notes d gapEasy gapNormal gapExpert).Sublist notes :=
    thinGo_sublist (dropsFor d) _ notes initLast
  refine ⟨hsub, hsub.length_le, ?_⟩
  intro k
  unfold thin_notes_for_difficulty
  rw [hdrops, thinGo_filter_comm true _ k notes initLast initLast rfl]
  have hfl : ∀ m ∈ notes.filter (fun n => decide (n.lane = k)), m.lane = k := by
    intro m hm
    simpa using List.of_mem_filter hm
  rw [thinGo_eq_thin1 _ k _ hfl initLast]
  exact Valid1_chain _ _ (initLast k) (thin1_valid _ _ (initLast k))

/-- Witness for C1 at the three-note example, easy tier, lane 0. -/
theorem claim_C1_easy_normal_thinning_witness :
    (thin_notes_for_difficulty demoNotes Difficulty.easy 260 160 80).Sublist demoNotes ∧
    (thin_notes_for_difficulty demoNotes Difficulty.easy 260 160 80).length ≤
      demoNotes.length ∧
    List.Chain'
      (fun a b => min_gap_for Difficulty.easy 260 160 80 ≤ b.timeMs - a.timeMs)
      ((thin_notes_for_difficulty demoNotes Difficulty.easy 260 160 80).filter
        (fun n => decide (n.lane = 0))) := by
  obtain ⟨h1, h2, h3⟩ :=
    claim_C1_easy_normal_thinning demoNotes (by decide) 260 160 80 Difficulty.easy
      (Or.inl rfl)
  exact ⟨h1, h2, h3 0⟩

/-- Claim C2: expert-tier thinning returns the input unchanged, for every
input sequence and every spacing configuration. -/
theorem claim_C2_expert_keeps_everything (notes : List NoteEvent)
    (gapEasy gapNormal gapExpert : ℚ) :
    thin_notes_for_difficulty notes Difficulty.expert gapEasy gapNormal gapExpert =
      notes :=
  thinGo_false _ notes initLast

/-- Claim C3: thinning is per-lane independent: filtering the thinned output
to one lane equals thinning the input already filtered to that lane, for
every tier, gap configuration and lane. -/
theorem claim_C3_per_lane_independence (notes : List NoteEvent)
    (_hsorted : notes.Pairwise fun a b => a.timeMs ≤ b.timeMs)
    (gapEasy gapNormal gapExpert : ℚ) (d : Difficulty) (k : ℤ) :
    (thin_notes_for_difficulty notes d gapEasy gapNormal gapExpert).filter
        (fun n => decide (n.lane = k)) =
      thin_notes_for_difficulty (notes.filter (fun n => decide (n.lane = k)))
        d gapEasy gapNormal gapExpert :=
  thinGo_filter_comm (dropsFor d) _ k notes initLast initLast rfl

/-- Witness for C3 at the three-note example, normal tier, lane 0. -/
theorem claim_C3_per_lane_independence_witness :
    (thin_notes_for_difficulty demoNotes Difficulty.normal 260 150 80).filter
        (fun n => decide (n.lane = 0)) =
      thin_notes_for_difficulty (demoNotes.filter (fun n => decide (n.lane = 0)))
        Difficulty.normal 260 150 80 :=
  claim_C3_per_lane_independence demoNotes (by decide) 260 150 80 Difficulty.normal 0

/-- Claim C4: with the gap values of build_chart_for_song (easy 260, normal
150), the easy output is at most as long as the normal output, which is at
most as long as the expert output; in general a larger gap never keeps more
notes at the dropping tiers. -/
theorem claim_C4_difficulty_ordering (notes : List NoteEvent)
    (hsorted : notes.Pairwise fun a b => a.timeMs ≤ b.timeMs)
    (g g' : ℚ) (hgap : g ≤ g') :
    (thin_notes_for_difficulty notes Difficulty.easy 260 160 80).length ≤
      (thin_notes_for_difficulty notes Difficulty.normal 260 150 80).length ∧
    (thin_notes_for_difficulty notes Difficulty.normal 260 150 80).length ≤
      (thin_notes_for_difficulty notes Difficulty.expert 260 160 80).length ∧
    (thinGo true g' initLast notes).length ≤ (thinGo true g initLast notes).length := by
  refine ⟨?_, ?_, thinGo_length_mono g g' hgap notes hsorted⟩
  · exact thinGo_length_mono 150 260 (by norm_num) notes hsorted
  · have hexp : thin_notes_for_difficulty notes Difficulty.expert 260 160 80 = notes :=
      thinGo_false _ notes initLast
    rw [hexp]
    exact (thinGo_sublist _ _ notes initLast).length_le

/-- Witness for C4 at the three-note example with gaps 100 and 200. -/
theorem claim_C4_difficulty_ordering_witness :
    (thin_notes_for_difficulty demoNotes Difficulty.easy 260 160 80).length ≤
      (thin_notes_for_difficulty demoNotes Difficulty.normal 260 150 80).length ∧
    (thin_notes_for_difficulty demoNotes Difficulty.normal 260 150 80).length ≤
      (thin_notes_for_difficulty demoNotes Difficulty.expert 260 160 80).length ∧
    (thinGo true 200 initLast demoNotes).length ≤
      (thinGo true 100 initLast demoNotes).length :=
  claim_C4_difficulty_ordering demoNotes (by decide) 100 200 (by norm_num)

/-! ## Claims about the Grid Quantizer -/

theorem pythonRound_intCast (k : ℤ) : pythonRound (k : ℚ) = k := by
  unfold pythonRound
  rw [Int.floor_intCast]
  norm_num

/-- Claim C5: quantization is idempotent for every positive grid size. -/
theorem claim_C5_quantize_idempotent (notes : List NoteEvent) (grid_ms : ℚ)
    (hg : 0 < grid_ms) :
    (quantize_notes_to_grid (quantize_notes_to_grid notes grid_ms) grid_ms).map
        (fun n => n.timeMs) =
      (quantize_notes_to_grid notes grid_ms).map (fun n => n.timeMs) := by
  unfold quantize_notes_to_grid
  rw [List.map_map, List.map_map, List.map_map]
  refine List.map_congr_left ?_
  intro n _
  simp only [Function.comp]
  rw [mul_div_cancel_right₀ _ (ne_of_gt hg), pythonRound_intCast]

/-- Witness for C5 at the three-note example with the 16th grid of 120 bpm
plus an off-grid time: grid 125 ms. -/
theorem claim_C5_quantize_idempotent_witness :
    (0:ℚ) < 125 ∧
    (quantize_notes_to_grid (quantize_notes_to_grid demoNotes 125) 125).map
        (fun n => n.timeMs) =
      (quantize_notes_to_grid demoNotes 125).map (fun n => n.timeMs) :=
  ⟨by norm_num, claim_C5_quantize_idempotent demoNotes 125 (by norm_num)⟩

/-! ## Claims about the Note Classifier and the Lane Mappers -/

/-- Claim C6: the classifier emits a hold iff the offset-adjusted duration
reaches the 350 ms threshold inclusively, a hold carries endTimeMs equal to
the computed end, a tap carries no endTimeMs, and a present endTimeMs is
strictly greater than timeMs. -/
theorem claim_C6_classifier_threshold (n : RawNote) (offset_ms : ℤ) :
    (note_end_ms n offset_ms - note_start_ms n offset_ms ≥ 350 →
      classify_note n offset_ms =
        { timeMs := note_start_ms n offset_ms, lane := lane_for_midi n.pitch,
          type := "hold", endTimeMs := some (note_end_ms n offset_ms) }) ∧
    (note_end_ms n offset_ms - note_start_ms n offset_ms < 350 →
      classify_note n offset_ms =
        { timeMs := note_start_ms n offset_ms, lane := lane_for_midi n.pitch,
          type := "tap", endTimeMs := none }) ∧
    (∀ t : ℤ, (classify_note n offset_ms).endTimeMs = some t →
      (classify_note n offset_ms).timeMs < t) := by
  simp only [classify_note]
  by_cases h : note_end_ms n offset_ms - note_start_ms n offset_ms ≥ 350
  · rw [if_pos h]
    refine ⟨fun _ => rfl, fun hlt => absurd h (by omega), ?_⟩
    intro t ht
    simp only [Option.some.injEq] at ht
    simp only []
    omega
  · rw [if_neg h]
    refine ⟨fun hge => absurd hge h, fun _ => rfl, ?_⟩
    intro t ht
    simp at ht

/-- Witness for C6: a one-second note at offset 5 is classified as a hold
from 5 ms to 1005 ms on lane 2. -/
theorem claim_C6_classifier_threshold_witness :
    note_end_ms { start := 0, end_ := 1, pitch := 60 } 5 -
        note_start_ms { start := 0, end_ := 1, pitch := 60 } 5 ≥ 350 ∧
    classify_note { start := 0, end_ := 1, pitch := 60 } 5 =
      { timeMs := 5, lane := 2, type := "hold", endTimeMs := some 1005 } := by
  have hf : ⌊(1000:ℚ)⌋ = 1000 := by
    rw [show (1000:ℚ) = ((1000:ℤ):ℚ) by norm_num, Int.floor_intCast]
  have hs : note_start_ms { start := 0, end_ := 1, pitch := 60 } 5 = 5 := by
    unfold note_start_ms pythonRound
    norm_num
  have he : note_end_ms { start := 0, end_ := 1, pitch := 60 } 5 = 1005 := by
    unfold note_end_ms pythonRound
    norm_num [hf]
  refine ⟨by rw [hs, he]; norm_num, ?_⟩
  have h := (claim_C6_classifier_threshold { start := 0, end_ := 1, pitch := 60 } 5).1
    (by rw [hs, he]; norm_num)
  rw [h, hs, he, show lane_for_midi 60 = 2 from by decide]

/-- Claim C8: both lane mappers are total into lanes 0..3 on the MIDI range,
both are non-decreasing in pitch, and lane_for_midi clamps at the
boundaries: pitch at most 36 gives lane 0, pitch at least 72 gives lane 3. -/
theorem claim_C8_lane_mappers (p q : ℤ) (_hp0 : 0 ≤ p) (_hp1 : p ≤ 127)
    (_hq0 : 0 ≤ q) (_hq1 : q ≤ 127) :
    (0 ≤ map_pitch_to_lane p ∧ map_pitch_to_lane p ≤ 3) ∧
    (0 ≤ lane_for_midi p ∧ lane_for_midi p ≤ 3) ∧
    (p ≤ q → map_pitch_to_lane p ≤ map_pitch_to_lane q) ∧
    (p ≤ q → lane_for_midi p ≤ lane_for_midi q) ∧
    (p ≤ 36 → lane_for_midi p = 0) ∧
    (72 ≤ p → lane_for_midi p = 3) := by
  have hfd : ∀ a : ℤ, (a - 36).fdiv 12 = (a - 36) / 12 := fun a =>
    Int.fdiv_eq_ediv _ (by norm_num)
  have hA_range : ∀ a : ℤ, 0 ≤ map_pitch_to_lane a ∧ map_pitch_to_lane a ≤ 3 := by
    intro a
    unfold map_pitch_to_lane
    split_ifs <;> omega
  have hA_mono : ∀ a b : ℤ, a ≤ b → map_pitch_to_lane a ≤ map_pitch_to_lane b := by
    intro a b hab
    unfold map_pitch_to_lane
    split_ifs <;> omega
  have hB_range : ∀ a : ℤ, 0 ≤ lane_for_midi a ∧ lane_for_midi a ≤ 3 := by
    intro a
    unfold lane_for_midi
    rw [hfd]
    omega
  have hB_mono : ∀ a b : ℤ, a ≤ b → lane_for_midi a ≤ lane_for_midi b := by
    intro a b hab
    unfold lane_for_midi
    rw [hfd, hfd]
    omega
  have hB_lo : ∀ a : ℤ, a ≤ 36 → lane_for_midi a = 0 := by
    intro a ha
    unfold lane_for_midi
    rw [hfd]
    omega
  have hB_hi : ∀ a : ℤ, 72 ≤ a → lane_for_midi a = 3 := by
    intro a ha
    unfold lane_for_midi
    rw [hfd]
    omega
  exact ⟨hA_range p, hB_range p, hA_mono p q, hB_mono p q, hB_lo p, hB_hi p⟩

/-- Witness for C8 at the boundary pitches 36 and 72. -/
theorem claim_C8_lane_mappers_witness :
    ((0:ℤ) ≤ 36 ∧ (36:ℤ) ≤ 127 ∧ (0:ℤ) ≤ 72 ∧ (72:ℤ) ≤ 127) ∧
    ((0 ≤ map_pitch_to_lane 36 ∧ map_pitch_to_lane 36 ≤ 3) ∧
     (0 ≤ lane_for_midi 36 ∧ lane_for_midi 36 ≤ 3) ∧
     ((36:ℤ) ≤ 72 → map_pitch_to_lane 36 ≤ map_pitch_to_lane 72) ∧
     ((36:ℤ) ≤ 72 → lane_for_midi 36 ≤ lane_for_midi 72) ∧
     ((36:ℤ) ≤ 36 → lane_for_midi 36 = 0) ∧
     ((72:ℤ) ≤ 36 → lane_for_midi 36 = 3)) :=
  ⟨by decide,
   claim_C8_lane_mappers 36 72 (by decide) (by decide) (by decide) (by decide)⟩

/-! ## Claims about the Chart Assembler -/

theorem build_stems_keys (bpm : ℚ) (slug midi_dir : String)
    (sources : String → Option (List RawNote)) :
    ∀ (names : List String) (es : List (String × StemEntry)),
    build_stems bpm slug midi_dir sources names = Except.ok es →
    es.map Prod.fst = names.filter (fun s => (sources s).isSome) := by
  intro names
  induction names with
  | nil =>
      intro es h
      simp only [build_stems, Except.ok.injEq] at h
      simp [← h]
  | cons s rest ih =>
      intro es h
      cases hsrc : sources s with
      | none =>
          simp only [build_stems, hsrc] at h
          rw [List.filter_cons, if_neg (by simp [hsrc])]
          exact ih es h
      | some raw =>
          simp only [build_stems, hsrc] at h
          cases hent : build_stem_entry bpm (midi_dir ++ "/" ++ slug ++ "_" ++ s ++ ".mid") raw with
          | error e => rw [hent] at h; simp at h
          | ok entry =>
              rw [hent] at h
              cases hrest : build_stems bpm slug midi_dir sources rest with
              | error e => rw [hrest] at h; simp at h
              | ok tail =>
                  rw [hrest] at h
                  simp only [Except.ok.injEq] at h
                  rw [← h, List.filter_cons, if_pos (by simp [hsrc])]
                  simp [ih tail hrest]

theorem build_stems_zero_bpm_error (slug midi_dir : String)
    (sources : String → Option (List RawNote)) :
    ∀ names : List String, (∃ s ∈ names, (sources s).isSome = true) →
    ∀ es, build_stems 0 slug midi_dir sources names ≠ Except.ok es := by
  intro names
  induction names with
  | nil => intro h; simp at h
  | cons s rest ih =>
      intro h es heq
      cases hsrc : sources s with
      | some raw =>
          simp only [build_stems, hsrc] at heq
          simp only [build_stem_entry, if_pos rfl] at heq
          simp at heq
      | none =>
          simp only [build_stems, hsrc] at heq
          have hrest : ∃ s2 ∈ rest, (sources s2).isSome = true := by
            rcases h with ⟨s2, hs2mem, hs2⟩
            rcases List.mem_cons.mp hs2mem with rfl | hmem
            · rw [hsrc] at hs2; simp at hs2
            · exact ⟨s2, hmem, hs2⟩
          exact ih hrest es heq

/-- Counterexample to claim C7: bpm = -120 is non-positive, yet the build
runs to completion and produces a chart document (there is no bpm
validation, and only bpm == 0 can raise, via division by zero). -/
theorem claim_C7_counterexample :
    (-120 : ℚ) ≤ 0 ∧
    buildOk (build_chart_for_song "local:0:Demo" "Demo Song" "vx9" (-120) "midi"
      drumsOnlySources) = true :=
  ⟨by norm_num, by decide⟩

/-- Claim C7 (amended): a build invoked with bpm = 0 and at least one stem
source present fails (uncaught ZeroDivisionError, non-zero exit) and
produces no chart document; negative bpm is not rejected. -/
theorem claim_C7_zero_bpm_fails (track_id song_name artist midi_dir : String)
    (sources : String → Option (List RawNote))
    (h : ∃ s ∈ stem_names, (sources s).isSome = true) :
    buildOk (build_chart_for_song track_id song_name artist 0 midi_dir sources) = false := by
  simp only [build_chart_for_song]
  cases hstems : build_stems 0 (song_name.replace " " "_") midi_dir sources stem_names with
  | error e => rfl
  | ok es => exact absurd hstems (build_stems_zero_bpm_error _ _ _ _ h es)

/-- Witness for the amended C7: with only the drums source present and
bpm = 0, the build fails and writes nothing. -/
theorem claim_C7_zero_bpm_fails_witness :
    (∃ s ∈ stem_names, (drumsOnlySources s).isSome = true) ∧
    buildOk (build_chart_for_song "local:0:Demo" "Demo Song" "vx9" 0 "midi"
      drumsOnlySources) = false :=
  ⟨⟨"drums", by decide, by decide⟩,
   claim_C7_zero_bpm_fails "local:0:Demo" "Demo Song" "vx9" "midi" drumsOnlySources
     ⟨"drums", by decide, by decide⟩⟩

/-- Claim C9: whenever the multi-stem build produces a document, the keys of
its stems object are exactly the stems whose source exists, in the fixed
iteration order; a missing source leaves no key behind. -/
theorem claim_C9_sparse_stems (track_id song_name artist midi_dir : String)
    (bpm : ℚ) (sources : String → Option (List RawNote))
    (h : buildOk (build_chart_for_song track_id song_name artist bpm midi_dir sources) =
      true) :
    chartKeys (build_chart_for_song track_id song_name artist bpm midi_dir sources) =
      stem_names.filter (fun s => (sources s).isSome) := by
  simp only [build_chart_for_song] at h ⊢
  cases hstems : build_stems bpm (song_name.replace " " "_") midi_dir sources stem_names with
  | error e => rw [hstems] at h; simp [buildOk] at h
  | ok es =>
      simp only [chartKeys]
      exact build_stems_keys bpm _ midi_dir sources stem_names es hstems

/-- Witness for C9: with only the drums source present the stems object has
exactly the key "drums". -/
theorem claim_C9_sparse_stems_witness :
    buildOk (build_chart_for_song "local:0:Demo" "Demo Song" "vx9" 120 "midi"
      drumsOnlySources) = true ∧
    chartKeys (build_chart_for_song "local:0:Demo" "Demo Song" "vx9" 120 "midi"
      drumsOnlySources) = ["drums"] :=
  ⟨by decide,
   (claim_C9_sparse_stems "local:0:Demo" "Demo Song" "vx9" "midi" 120 drumsOnlySources
     (by decide)).trans (by decide)⟩

/-- Claim C10: every chart document produced by the multi-stem builder has
audioOffsetMs equal to 0; the builder takes no offset input at all. -/
theorem claim_C10_audio_offset_zero (track_id song_name artist midi_dir : String)
    (bpm : ℚ) (sources : String → Option (List RawNote))
    (h : buildOk (build_chart_for_song track_id song_name artist bpm midi_dir sources) =
      true) :
    chartAudioOffset (build_chart_for_song track_id song_name artist bpm midi_dir sources) =
      some 0 := by
  simp only [build_chart_for_song] at h ⊢
  cases hstems : build_stems bpm (song_name.replace " " "_") midi_dir sources stem_names with
  | error e => rw [hstems] at h; simp [buildOk] at h
  | ok es => rfl

/-- Witness for C10 at a successful concrete build. -/
theorem claim_C10_audio_offset_zero_witness :
    buildOk (build_chart_for_song "local:0:Demo" "Demo Song" "vx9" 120 "midi"
      drumsOnlySources) = true ∧
    chartAudioOffset (build_chart_for_song "local:0:Demo" "Demo Song" "vx9" 120 "midi"
      drumsOnlySources) = some 0 :=
  ⟨by decide,
   claim_C10_audio_offset_zero "local:0:Demo" "Demo Song" "vx9" "midi" 120 drumsOnlySources
     (by decide)⟩
